import Mathlib

/-!
# TinyShell: a verification development over `src/tinyshell.cpp`

The C++ class `TinyShell` is embedded function by function.

* `std::string` is `String`, `std::vector<T>` is `List T`; `push_back` appends at
  the end, `v[i]` is the `i`-th element.
* A `for` loop over a vector becomes a structural recursion that carries the
  loop's variables.
* By-reference out-parameters (`find_redirection`) are returned as a record.
* The operating system is an explicit record `OS` giving the result of every
  system call the code makes; a run of a function yields an `Outcome` and the
  ordered list of `Event`s (system calls and output statements) it performed.
* The pipe table `pipes` is addressed by index: every access is recorded with
  its index, next to the length the table was allocated with.
* A `char` of the source is a `Char` here. The tokenizer compares characters
  only with `"`, `'` and the space, which are single bytes that occur in no
  multi-byte UTF-8 sequence, so reading a line by characters or by bytes cuts
  it at the same places.
* The wait-status layout, `WEXITSTATUS`, `size_t` and `max_size()` come from
  the platform headers (Linux, glibc, libstdc++ on a 64-bit target), not from
  the repository; their definitions below say so.
-/

namespace TinyShell

/-! ## Tokenizer (`tokenize`, lines 26-51) -/

/-- The double quote character, `'"'` in the source. -/
def dquote : Char := Char.ofNat 34

/-- The single quote character, `'\''` in the source. -/
def squote : Char := Char.ofNat 39

/-- The local variables of `tokenize`: `tokens`, `token`, `in_quotes`. -/
structure TokenizeState where
  tokens : List String
  token : String
  in_quotes : Bool
deriving DecidableEq, Repr

/-- One iteration of the `for` loop of `tokenize` (lines 32-43) on character `c`. -/
def tokenize_step (st : TokenizeState) (c : Char) : TokenizeState :=
  if c = dquote ∨ c = squote then
    { st with in_quotes := !st.in_quotes }
  else if c = ' ' ∧ st.in_quotes = false then
    if st.token ≠ "" then
      { st with tokens := st.tokens ++ [st.token], token := "" }
    else
      st
  else
    { st with token := st.token.push c }

/-- The `for` loop of `tokenize` (line 31) over the characters still to read. -/
def tokenize_loop : List Char → TokenizeState → TokenizeState
  | [], st => st
  | c :: cs, st => tokenize_loop cs (tokenize_step st c)

/-- The function `tokenize` (lines 26-51). -/
def tokenize (line : String) : List String :=
  let st := tokenize_loop line.data { tokens := [], token := "", in_quotes := false }
  if st.token ≠ "" then st.tokens ++ [st.token] else st.tokens

/-- The line split on the space character with the empty pieces dropped: the
maximal runs of non-space characters, in order (the reading of the
specification, used to compare `tokenize` with). -/
def split_on_spaces (line : String) : List String :=
  ((line.data.splitOn ' ').filter (fun piece => piece ≠ [])).map String.mk

/-- The line made of a double quote, then `text`, then a double quote. -/
def quoted (text : String) : String :=
  String.singleton dquote ++ text ++ String.singleton dquote

/-! ## Parser helpers -/

/-- The function `is_builtin` (lines 53-55). -/
def is_builtin (cmd : String) : Bool :=
  cmd = "cd" || cmd = "exit" || cmd = "help" || cmd = "pwd"

/-- The local variables of `parse_pipeline`: `pipeline`, `current_cmd`. -/
structure PipelineState where
  pipeline : List (List String)
  current_cmd : List String
deriving DecidableEq, Repr

/-- One iteration of the `for` loop of `parse_pipeline` (lines 96-103). -/
def parse_pipeline_step (st : PipelineState) (tok : String) : PipelineState :=
  if tok = "|" then
    if st.current_cmd ≠ [] then
      { pipeline := st.pipeline ++ [st.current_cmd], current_cmd := [] }
    else
      st
  else
    { st with current_cmd := st.current_cmd ++ [tok] }

/-- The `for` loop of `parse_pipeline` (line 95) over the tokens still to read. -/
def parse_pipeline_loop : List String → PipelineState → PipelineState
  | [], st => st
  | tok :: rest, st => parse_pipeline_loop rest (parse_pipeline_step st tok)

/-- The function `parse_pipeline` (lines 91-111). -/
def parse_pipeline (tokens : List String) : List (List String) :=
  let st := parse_pipeline_loop tokens { pipeline := [], current_cmd := [] }
  if st.current_cmd ≠ [] then st.pipeline ++ [st.current_cmd] else st.pipeline

/-- The maximal runs of consecutive tokens different from the pipe token, in
order (the reading of the specification, used to compare `parse_pipeline`
with). -/
def maximal_runs (tokens : List String) : List (List String) :=
  (tokens.splitOn "|").filter (fun run => run ≠ [])

/-- The by-reference parameters of `find_redirection`: `input_file`,
`output_file`, `append`. -/
structure Redirection where
  input_file : String
  output_file : String
  append : Bool
deriving DecidableEq, Repr

/-- The `for` loop of `find_redirection` (lines 114-123) at index `i`, where the
first argument is the part of `tokens` from index `i` on: `tokens[i]` is its
head `tok`, `i + 1 < tokens.size()` says that its tail `rest` is not empty, and
`tokens[i + 1]` is then the head of `rest`. The result is the returned
position (`-1` when the loop ends) with the by-reference parameters. -/
def find_redirection_loop : List String → Nat → Redirection → Int × Redirection
  | [], _, r => (-1, r)
  | tok :: rest, i, r =>
    if tok = "<" ∧ rest ≠ [] then
      ((i : Int), { r with input_file := rest.headD "" })
    else if (tok = ">" ∨ tok = ">>") ∧ rest ≠ [] then
      ((i : Int), { r with output_file := rest.headD "", append := decide (tok = ">>") })
    else
      find_redirection_loop rest (i + 1) r

/-- The function `find_redirection` (lines 113-125). -/
def find_redirection (tokens : List String) (r : Redirection) : Int × Redirection :=
  find_redirection_loop tokens 0 r

/-- The function `has_background` (lines 127-129). -/
def has_background (tokens : List String) : Bool :=
  match tokens.getLast? with
  | some last => decide (last = "&")
  | none => false

/-- The function `remove_background_marker` (lines 131-136). -/
def remove_background_marker (tokens : List String) : List String :=
  if has_background tokens then tokens.dropLast else tokens

/-- Lines 141-142 and 146-153 of `execute_command`: from `clean_tokens`, the
redirection found (starting from empty file names and `append = false`) and
`cmd_tokens`. -/
def command_tokens (clean_tokens : List String) : Redirection × List String :=
  let found := find_redirection clean_tokens { input_file := "", output_file := "", append := false }
  let redir_pos := found.1
  if redir_pos ≠ -1 then
    (found.2, clean_tokens.take redir_pos.toNat)
  else
    (found.2, clean_tokens)

/-- The `open` flags the source names; a `|` of flags is the list of its members. -/
inductive OpenFlag
  | O_RDONLY | O_WRONLY | O_CREAT | O_APPEND | O_TRUNC
deriving DecidableEq, Repr

/-- The permission bits the source names. -/
inductive ModeBit
  | S_IRUSR | S_IWUSR | S_IRGRP | S_IROTH
deriving DecidableEq, Repr

/-- The two standard descriptors the source duplicates onto. -/
inductive StdFd
  | STDIN_FILENO | STDOUT_FILENO
deriving DecidableEq, Repr

/-- A descriptor as the source names it: the local variable `fd` that `open`
returned, or the entry `pipes[index]` of the pipe table. -/
inductive FdRef
  | fd
  | pipes (index : Nat)
deriving DecidableEq, Repr

/-- A system call or output statement performed by the process that runs the
function, in the order of the source. -/
inductive Event
  /-- `vector<int> pipes(len)`: the pipe table is allocated with `len` entries. -/
  | alloc_pipes (len : Nat)
  /-- `pipe(pipes.data() + offset)`: stores the two ends at `offset`, `offset + 1`. -/
  | pipe (offset : Nat) (result : Int)
  | fork (result : Int)
  | open_file (path : String) (flags : List OpenFlag) (mode : List ModeBit) (result : Int)
  | dup2 (src : FdRef) (dst : StdFd)
  | close (src : FdRef)
  | execvp (argv : List String)
  | perror (msg : String)
  | waitpid (pid : Int) (status : Nat)
  /-- `cout << "[" << pid << "]" << endl`. -/
  | print_pid (pid : Int)
  /-- `cout << text << endl`. -/
  | cout (text : String)
  /-- `cerr << text << endl`. -/
  | cerr (text : String)
  | chdir (path : String) (result : Int)
  | getcwd
deriving DecidableEq, Repr

/-- How a run of a function ends in the process that runs it. -/
inductive Outcome
  /-- The function returns `status` to its caller. -/
  | returned (status : Int)
  /-- The call `execvp` succeeded: the process image is replaced. -/
  | replaced (argv : List String)
  /-- The call `exit(code)` ended the process. -/
  | exited (code : Int)
  /-- The constructor of `std::vector` threw `std::length_error`; nothing in the
  source catches it. -/
  | length_error
deriving DecidableEq, Repr

/-- The results of the system calls, as the operating system gives them. -/
structure OS where
  /-- The value returned by the call of `fork()` made for stage `i` (`0` for
  the only call of `execute_single_command`): `0` in the child, the child's
  process id in the parent, `-1` on failure. -/
  fork_result : Nat → Int
  /-- The value returned by the `i`-th call of `pipe`. -/
  pipe_result : Nat → Int
  /-- The value returned by `open` on a path. -/
  open_result : String → Int
  /-- Whether `execvp` on this argument vector replaces the process image. -/
  execvp_ok : List String → Bool
  /-- The status that `waitpid(pid, &status, 0)` stores. -/
  wait_status : Int → Nat
  /-- The value returned by `chdir` on a path. -/
  chdir_result : String → Int
  /-- The directory `getcwd` writes, when it succeeds. -/
  getcwd_result : Option String

/-- The glibc macro `WEXITSTATUS(status)`, which is `((status) & 0xff00) >> 8`:
bits 8 to 15 of the wait status. -/
def WEXITSTATUS (status : Nat) : Nat := (status / 256) % 256

/-- The mode `S_IRUSR | S_IWUSR | S_IRGRP | S_IROTH` (lines 187 and 251). -/
def output_mode : List ModeBit :=
  [ModeBit.S_IRUSR, ModeBit.S_IWUSR, ModeBit.S_IRGRP, ModeBit.S_IROTH]

/-- The flags of line 186: `O_WRONLY | O_CREAT | (append ? O_APPEND : O_TRUNC)`. -/
def single_output_flags (append : Bool) : List OpenFlag :=
  [OpenFlag.O_WRONLY, OpenFlag.O_CREAT, if append then OpenFlag.O_APPEND else OpenFlag.O_TRUNC]

/-- The flags of line 250: `O_WRONLY | O_CREAT | O_TRUNC`. -/
def pipeline_output_flags : List OpenFlag :=
  [OpenFlag.O_WRONLY, OpenFlag.O_CREAT, OpenFlag.O_TRUNC]

/-- The body of the input block (lines 176-182 and 240-246): `false` when the
child ended with `exit(1)`. -/
def open_input (os : OS) (input_file : String) : Bool × List Event :=
  let fd := os.open_result input_file
  if fd = -1 then
    (false, [Event.open_file input_file [OpenFlag.O_RDONLY] [] fd, Event.perror "open input file"])
  else
    (true, [Event.open_file input_file [OpenFlag.O_RDONLY] [] fd,
      Event.dup2 FdRef.fd StdFd.STDIN_FILENO, Event.close FdRef.fd])

/-- The body of the output block (lines 186-194 and 250-258) with the flags its
first line computes: `false` when the child ended with `exit(1)`. -/
def open_output (os : OS) (output_file : String) (flags : List OpenFlag) : Bool × List Event :=
  let fd := os.open_result output_file
  if fd = -1 then
    (false, [Event.open_file output_file flags output_mode fd, Event.perror "open output file"])
  else
    (true, [Event.open_file output_file flags output_mode fd,
      Event.dup2 FdRef.fd StdFd.STDOUT_FILENO, Event.close FdRef.fd])

/-- The end of a child (lines 197-205 and 273-281): `execvp` on the stage, and
`perror`, `exit(1)` when it returns. -/
def run_program (os : OS) (argv : List String) : Outcome × List Event :=
  if os.execvp_ok argv then
    (Outcome.replaced argv, [Event.execvp argv])
  else
    (Outcome.exited 1, [Event.execvp argv, Event.perror "execvp"])

/-- The child branch of `execute_single_command` (lines 174-205). -/
def single_child (os : OS) (cmd_tokens : List String) (input_file output_file : String)
    (append : Bool) : Outcome × List Event :=
  let r1 := if input_file ≠ "" then open_input os input_file else (true, [])
  if r1.1 = false then
    (Outcome.exited 1, r1.2)
  else
    let r2 :=
      if output_file ≠ "" then open_output os output_file (single_output_flags append)
      else (true, [])
    if r2.1 = false then
      (Outcome.exited 1, r1.2 ++ r2.2)
    else
      let r3 := run_program os cmd_tokens
      (r3.1, r1.2 ++ r2.2 ++ r3.2)

/-- The function `execute_single_command` (lines 170-219). -/
def execute_single_command (os : OS) (cmd_tokens : List String)
    (input_file output_file : String) (append background : Bool) : Outcome × List Event :=
  let pid := os.fork_result 0
  if pid = 0 then
    let child := single_child os cmd_tokens input_file output_file append
    (child.1, Event.fork pid :: child.2)
  else if pid > 0 then
    if background then
      (Outcome.returned 0, [Event.fork pid, Event.print_pid pid])
    else
      let status := os.wait_status pid
      (Outcome.returned (WEXITSTATUS status), [Event.fork pid, Event.waitpid pid status])
  else
    (Outcome.returned 1, [Event.fork pid, Event.perror "fork"])

/-! ## Pipelines (`execute_pipeline`, lines 221-304) -/

/-- The conversion of an `int` to `size_t` (64 bits), as happens to the argument
of the constructor of `vector<int>`. -/
def size_t_of_int (n : Int) : Nat := (n % 2 ^ 64).toNat

/-- The value of `vector<int>::max_size()` in libstdc++ on a 64-bit target:
`PTRDIFF_MAX / sizeof(int)`. A larger length makes the constructor throw
`std::length_error`. -/
def vector_int_max_size : Nat := (2 ^ 63 - 1) / 4

/-- The length `vector<int> pipes(num_commands - 1)` is asked for (line 224). -/
def pipe_table_len (num_commands : Int) : Nat := size_t_of_int (num_commands - 1)

/-- The indices of the pipe table an event reads or writes. -/
def table_indices : Event → List Nat
  | Event.pipe offset _ => [offset, offset + 1]
  | Event.dup2 (FdRef.pipes index) _ => [index]
  | Event.close (FdRef.pipes index) => [index]
  | _ => []

/-- The loop of lines 226-231 from index `i`, with `remaining` iterations left
(`num_commands - 1 - i`): `false` when a call of `pipe` failed and the function
returns 1. -/
def pipe_loop (os : OS) : Nat → Nat → Bool × List Event
  | 0, _ => (true, [])
  | remaining + 1, i =>
    let result := os.pipe_result i
    if result = -1 then
      (false, [Event.pipe (i * 2) result, Event.perror "pipe"])
    else
      let later := pipe_loop os remaining (i + 1)
      (later.1, Event.pipe (i * 2) result :: later.2)

/-- The loops of lines 269-271 and 290-292: `close(pipes[j])` for every
`j < 2 * (num_commands - 1)`. -/
def close_all_pipes (num_commands : Nat) : List Event :=
  (List.range (2 * (num_commands - 1))).map (fun j => Event.close (FdRef.pipes j))

/-- The child branch of `execute_pipeline` for stage `i` (lines 238-281). -/
def pipeline_child (os : OS) (num_commands i : Nat) (stage : List String)
    (input_file output_file : String) : Outcome × List Event :=
  let r1 := if i = 0 ∧ input_file ≠ "" then open_input os input_file else (true, [])
  if r1.1 = false then
    (Outcome.exited 1, r1.2)
  else
    let r2 :=
      if i + 1 = num_commands ∧ output_file ≠ "" then
        open_output os output_file pipeline_output_flags
      else (true, [])
    if r2.1 = false then
      (Outcome.exited 1, r1.2 ++ r2.2)
    else
      let dup_in :=
        if i > 0 then [Event.dup2 (FdRef.pipes ((i - 1) * 2)) StdFd.STDIN_FILENO] else []
      let dup_out :=
        if i + 1 < num_commands then [Event.dup2 (FdRef.pipes (i * 2 + 1)) StdFd.STDOUT_FILENO]
        else []
      let r3 := run_program os stage
      (r3.1, r1.2 ++ r2.2 ++ dup_in ++ dup_out ++ close_all_pipes num_commands ++ r3.2)

/-- The loop of lines 235-288 at index `i`, where the first list is the part of
`pipeline` from index `i` on and `pids` the process ids pushed so far: either
the loop ends with all the process ids, or the function ends inside the loop
(in a child, or with `return 1` after a failed `fork`). -/
def fork_loop (os : OS) (num_commands : Nat) (input_file output_file : String) :
    List (List String) → Nat → List Int → Except Outcome (List Int) × List Event
  | [], _, pids => (Except.ok pids, [])
  | stage :: rest, i, pids =>
    let pid := os.fork_result i
    if pid = 0 then
      let child := pipeline_child os num_commands i stage input_file output_file
      (Except.error child.1, Event.fork pid :: child.2)
    else if pid > 0 then
      let later := fork_loop os num_commands input_file output_file rest (i + 1) (pids ++ [pid])
      (later.1, Event.fork pid :: later.2)
    else
      (Except.error (Outcome.returned 1), [Event.fork pid, Event.perror "fork"])

/-- The function `execute_pipeline` (lines 221-304). An access to the pipe table
is recorded with its index whatever the length of the table, and
`int num_commands` is the number of stages (a count that an `int` holds). In a
child `i == num_commands - 1` is written `i + 1 = num_commands`. -/
def execute_pipeline (os : OS) (pipeline : List (List String))
    (input_file output_file : String) (background : Bool) : Outcome × List Event :=
  let num_commands : Nat := pipeline.length
  let len := pipe_table_len num_commands
  if len > vector_int_max_size then
    (Outcome.length_error, [])
  else
    let made := pipe_loop os (num_commands - 1) 0
    if made.1 = false then
      (Outcome.returned 1, Event.alloc_pipes len :: made.2)
    else
      match fork_loop os num_commands input_file output_file pipeline 0 [] with
      | (Except.error outcome, forks) =>
        (outcome, Event.alloc_pipes len :: made.2 ++ forks)
      | (Except.ok pids, forks) =>
        let start := Event.alloc_pipes len :: made.2 ++ forks ++ close_all_pipes num_commands
        if background then
          (Outcome.returned 0, start ++ [Event.print_pid (pids.headD 0)])
        else
          (Outcome.returned 0,
            start ++ pids.map (fun pid => Event.waitpid pid (os.wait_status pid)))

/-! ## Builtins and `execute_command` -/

/-- The data members of the class: `current_dir` and `running`. -/
structure Shell where
  current_dir : String
  running : Bool
deriving DecidableEq, Repr

/-- The function `update_prompt` (lines 19-24). -/
def update_prompt (os : OS) (sh : Shell) : Shell :=
  match os.getcwd_result with
  | some dir => { sh with current_dir := dir }
  | none => sh

/-- The lines `help` prints (lines 76-85). -/
def help_lines : List String :=
  ["TinyShell - A simple command shell", "Built-in commands:",
   "  cd <dir>  - Change directory", "  pwd       - Print working directory",
   "  exit      - Exit the shell", "  help      - Show this help message",
   "Features:", "  I/O redirection: >, <, >>", "  Piping: |", "  Background processes: &"]

/-- The function `execute_builtin` (lines 57-89): the returned status, the data
members afterwards and the events. `args[0]` is the head of `args`; the only
call (line 158) passes a non-empty vector. -/
def execute_builtin (os : OS) (sh : Shell) (args : List String) : Int × Shell × List Event :=
  let arg0 := args.headD ""
  if arg0 = "cd" then
    if args.length < 2 then
      (1, sh, [Event.cerr "cd: missing argument"])
    else
      let path := args.getD 1 ""
      let result := os.chdir_result path
      if result ≠ 0 then
        (1, sh, [Event.chdir path result, Event.perror "cd"])
      else
        (0, update_prompt os sh, [Event.chdir path result, Event.getcwd])
  else if arg0 = "exit" then
    (0, { sh with running := false }, [])
  else if arg0 = "pwd" then
    (0, sh, [Event.cout sh.current_dir])
  else if arg0 = "help" then
    (0, sh, help_lines.map Event.cout)
  else
    (1, sh, [])

/-- The statement at which `execute_command` ends, with the arguments it
passes: one of the two `return 0` (lines 139 and 155), or the call of line
158, 164 or 166. -/
inductive Call
  | return_zero
  | builtin (args : List String)
  | single (cmd_tokens : List String) (input_file output_file : String)
      (append background : Bool)
  | pipeline (pipeline : List (List String)) (input_file output_file : String)
      (background : Bool)
deriving DecidableEq, Repr

/-- The control flow of `execute_command` (lines 138-168) down to the statement
it ends at. -/
def select_call (tokens : List String) : Call :=
  if tokens = [] then
    Call.return_zero
  else
    let background := has_background tokens
    let clean_tokens := remove_background_marker tokens
    let parts := command_tokens clean_tokens
    let redir := parts.1
    let cmd_tokens := parts.2
    if cmd_tokens = [] then
      Call.return_zero
    else if is_builtin (cmd_tokens.headD "") then
      Call.builtin cmd_tokens
    else
      let pipeline := parse_pipeline cmd_tokens
      if pipeline.length = 1 then
        Call.single (pipeline.headD []) redir.input_file redir.output_file redir.append background
      else
        Call.pipeline pipeline redir.input_file redir.output_file background

/-- The function `execute_command` (lines 138-168): how it ends, the data
members afterwards and the events. -/
def execute_command (os : OS) (sh : Shell) (tokens : List String) :
    Outcome × Shell × List Event :=
  match select_call tokens with
  | Call.return_zero => (Outcome.returned 0, sh, [])
  | Call.builtin args =>
    let done := execute_builtin os sh args
    (Outcome.returned done.1, done.2.1, done.2.2)
  | Call.single cmd_tokens input_file output_file append background =>
    let done := execute_single_command os cmd_tokens input_file output_file append background
    (done.1, sh, done.2)
  | Call.pipeline pipeline input_file output_file background =>
    let done := execute_pipeline os pipeline input_file output_file background
    (done.1, sh, done.2)

/-- An operating system in which every call succeeds: `fork` for stage `i`
returns the process id `100 + i` to the parent, `pipe` returns 0, `open`
returns descriptor 3, `execvp` replaces the image, every child exits with
code 0. -/
def os_ok : OS :=
  { fork_result := fun i => 100 + (i : Int)
    pipe_result := fun _ => 0
    open_result := fun _ => 3
    execvp_ok := fun _ => true
    wait_status := fun _ => 0
    chdir_result := fun _ => 0
    getcwd_result := some "/" }

/-- The same operating system seen from the child of stage `k`: there the call
of `fork` for stage `k` returns 0. -/
def os_child (k : Nat) : OS :=
  { os_ok with fork_result := fun i => if i = k then 0 else 100 + (i : Int) }

/-- The event is a call of `fork`. -/
def is_fork : Event → Bool
  | Event.fork _ => true
  | _ => false

/-- The flags of the calls of `open` that carry a creation mode (the output
redirections) among the events. -/
def output_open_flags (events : List Event) : List (List OpenFlag) :=
  events.filterMap (fun e =>
    match e with
    | Event.open_file _ flags (_ :: _) _ => some flags
    | _ => none)

/-! # Theorems -/

/-! ## General facts on splitting -/

theorem splitOnP_go_filter_flatten {α : Type} [DecidableEq α] (p : α → Bool) (xs acc : List α) :
    ((List.splitOnP.go p xs acc).filter (fun piece => piece ≠ [])).flatten
      = acc.reverse ++ xs.filter (fun x => !p x) := by
  induction xs generalizing acc with
  | nil =>
    by_cases h : acc.reverse = [] <;> simp [List.splitOnP.go, List.filter_cons, h]
  | cons x xs ih =>
    have ih2 := ih
    simp only [ne_eq, decide_not] at ih2
    by_cases hp : p x = true
    · by_cases h : acc.reverse = []
      · simp [List.splitOnP.go, hp, List.filter_cons, h, ih2]
      · simp [List.splitOnP.go, hp, List.filter_cons, h, ih2]
    · simp [List.splitOnP.go, hp, List.filter_cons, ih2]

theorem splitOnP_go_mem {α : Type} (p : α → Bool) (xs acc : List α)
    (hacc : ∀ x ∈ acc, p x = false) :
    ∀ piece ∈ List.splitOnP.go p xs acc, ∀ x ∈ piece, p x = false := by
  induction xs generalizing acc with
  | nil =>
    intro piece hpiece x hx
    simp [List.splitOnP.go] at hpiece
    subst hpiece
    exact hacc x (by simpa using hx)
  | cons y ys ih =>
    intro piece hpiece x hx
    by_cases hp : p y = true
    · simp [List.splitOnP.go, hp] at hpiece
      rcases hpiece with hpiece | hpiece
      · subst hpiece
        exact hacc x (by simpa using hx)
      · exact ih [] (by simp) piece hpiece x hx
    · simp [List.splitOnP.go, hp] at hpiece
      refine ih (y :: acc) ?_ piece hpiece x hx
      intro z hz
      rcases List.mem_cons.mp hz with hz | hz
      · subst hz; simpa using hp
      · exact hacc z hz

/-! ## `parse_pipeline` -/

theorem parse_pipeline_loop_eq (tokens : List String) (pl : List (List String))
    (acc : List String) :
    (if (parse_pipeline_loop tokens ⟨pl, acc.reverse⟩).current_cmd ≠ [] then
        (parse_pipeline_loop tokens ⟨pl, acc.reverse⟩).pipeline
          ++ [(parse_pipeline_loop tokens ⟨pl, acc.reverse⟩).current_cmd]
      else (parse_pipeline_loop tokens ⟨pl, acc.reverse⟩).pipeline)
      = pl ++ (List.splitOnP.go (fun tok => tok == "|") tokens acc).filter
          (fun run => run ≠ []) := by
  induction tokens generalizing pl acc with
  | nil =>
    by_cases h : acc = [] <;> simp [parse_pipeline_loop, List.splitOnP.go, h]
  | cons tok rest ih =>
    by_cases hp : tok = "|"
    · by_cases h : acc = []
      · have := ih pl []
        simp only [List.reverse_nil] at this
        simp [parse_pipeline_loop, parse_pipeline_step, List.splitOnP.go, hp, h, this]
      · have := ih (pl ++ [acc.reverse]) []
        simp only [List.reverse_nil] at this
        simp [parse_pipeline_loop, parse_pipeline_step, List.splitOnP.go, hp, h, this]
    · have := ih pl (tok :: acc)
      simp only [List.reverse_cons] at this
      simp [parse_pipeline_loop, parse_pipeline_step, List.splitOnP.go, hp, this]

theorem parse_pipeline_eq_maximal_runs (tokens : List String) :
    parse_pipeline tokens = maximal_runs tokens := by
  have := parse_pipeline_loop_eq tokens [] []
  simpa [parse_pipeline, maximal_runs, List.splitOn, List.splitOnP] using this

theorem parse_pipeline_flatten (tokens : List String) :
    (parse_pipeline tokens).flatten = tokens.filter (fun tok => tok ≠ "|") := by
  rw [parse_pipeline_eq_maximal_runs]
  have := splitOnP_go_filter_flatten (fun tok : String => tok == "|") tokens []
  simpa [maximal_runs, List.splitOn, List.splitOnP] using this

theorem parse_pipeline_stage_mem (tokens : List String) :
    ∀ stage ∈ parse_pipeline tokens, stage ≠ [] ∧ "|" ∉ stage := by
  intro stage hstage
  rw [parse_pipeline_eq_maximal_runs] at hstage
  simp only [maximal_runs, List.splitOn, List.splitOnP, List.mem_filter] at hstage
  refine ⟨by simpa using hstage.2, ?_⟩
  intro hmem
  have := splitOnP_go_mem (fun tok : String => tok == "|") tokens [] (by simp) stage
    hstage.1 "|" hmem
  simp at this

/-- Claim C3 (stage splitting). `parse_pipeline` returns, in order, exactly the
maximal runs of consecutive tokens different from `|`; no stage is empty, no
stage contains the token `|`, and the concatenation of the stages is the input
with every `|` removed. -/
theorem parse_pipeline_stage_splitting (tokens : List String) :
    parse_pipeline tokens = maximal_runs tokens
      ∧ (∀ stage ∈ parse_pipeline tokens, stage ≠ [] ∧ "|" ∉ stage)
      ∧ (parse_pipeline tokens).flatten = tokens.filter (fun tok => tok ≠ "|") :=
  ⟨parse_pipeline_eq_maximal_runs tokens, parse_pipeline_stage_mem tokens,
    parse_pipeline_flatten tokens⟩

/-! ## `tokenize` -/

theorem string_ne_empty_iff (s : String) : s ≠ "" ↔ s.data ≠ [] := by
  constructor
  · intro h hd
    apply h
    cases s
    simp_all
  · intro h hs
    apply h
    subst hs
    rfl

theorem tokenize_loop_append (a b : List Char) (st : TokenizeState) :
    tokenize_loop (a ++ b) st = tokenize_loop b (tokenize_loop a st) := by
  induction a generalizing st with
  | nil => rfl
  | cons c cs ih => simp [tokenize_loop, ih]

theorem tokenize_loop_unquoted (cs : List Char) (toks : List String) (acc : List Char)
    (hd : dquote ∉ cs) (hs : squote ∉ cs) :
    (if (tokenize_loop cs ⟨toks, ⟨acc.reverse⟩, false⟩).token ≠ "" then
        (tokenize_loop cs ⟨toks, ⟨acc.reverse⟩, false⟩).tokens
          ++ [(tokenize_loop cs ⟨toks, ⟨acc.reverse⟩, false⟩).token]
      else (tokenize_loop cs ⟨toks, ⟨acc.reverse⟩, false⟩).tokens)
      = toks ++ ((List.splitOnP.go (fun c => c == ' ') cs acc).filter
          (fun piece => piece ≠ [])).map String.mk := by
  induction cs generalizing toks acc with
  | nil =>
    by_cases h : acc = [] <;>
      simp [tokenize_loop, List.splitOnP.go, h, string_ne_empty_iff]
  | cons c cs ih =>
    have hc1 : c ≠ dquote := fun h => hd (by simp [h])
    have hc2 : c ≠ squote := fun h => hs (by simp [h])
    have hd2 : dquote ∉ cs := fun h => hd (by simp [h])
    have hs2 : squote ∉ cs := fun h => hs (by simp [h])
    by_cases hp : c = ' '
    · subst hp
      have hq1 : ¬ (' ' = dquote) := hc1
      have hq2 : ¬ (' ' = squote) := hc2
      by_cases h : acc = []
      · have := ih toks [] hd2 hs2
        simp only [List.reverse_nil] at this
        subst h
        simpa [tokenize_loop, tokenize_step, List.splitOnP.go, hq1, hq2] using this
      · have := ih (toks ++ [⟨acc.reverse⟩]) [] hd2 hs2
        simp only [List.reverse_nil] at this
        simpa [tokenize_loop, tokenize_step, List.splitOnP.go, hq1, hq2, h,
          string_ne_empty_iff] using this
    · have := ih toks (c :: acc) hd2 hs2
      simp only [List.reverse_cons] at this
      simpa [tokenize_loop, tokenize_step, List.splitOnP.go, hc1, hc2, hp, String.push]
        using this

theorem tokenize_eq_split_on_spaces (line : String) (hd : dquote ∉ line.data)
    (hs : squote ∉ line.data) : tokenize line = split_on_spaces line := by
  have := tokenize_loop_unquoted line.data [] [] hd hs
  simpa [tokenize, split_on_spaces, List.splitOn, List.splitOnP] using this

theorem tokenize_flatten (line : String) (hd : dquote ∉ line.data) (hs : squote ∉ line.data) :
    ((tokenize line).map String.data).flatten = line.data.filter (fun c => c ≠ ' ') := by
  rw [tokenize_eq_split_on_spaces line hd hs]
  have := splitOnP_go_filter_flatten (fun c : Char => c == ' ') line.data []
  simp only [split_on_spaces, List.splitOn, List.splitOnP, List.map_map]
  have hid : (String.data ∘ String.mk) = id := by
    funext l; rfl
  rw [hid, List.map_id]
  simpa using this

theorem tokenize_token_mem (line : String) (hd : dquote ∉ line.data) (hs : squote ∉ line.data) :
    ∀ tok ∈ tokenize line, tok ≠ "" ∧ ' ' ∉ tok.data := by
  intro tok htok
  rw [tokenize_eq_split_on_spaces line hd hs] at htok
  simp only [split_on_spaces, List.splitOn, List.splitOnP, List.mem_map, List.mem_filter]
    at htok
  obtain ⟨piece, ⟨hmem, hne⟩, rfl⟩ := htok
  refine ⟨?_, ?_⟩
  · rw [string_ne_empty_iff]
    simpa using hne
  · intro hsp
    have := splitOnP_go_mem (fun c : Char => c == ' ') line.data [] (by simp) piece hmem
      ' ' hsp
    simp at this

/-- Claim C9 (plain splitting). For a line that contains neither `"` nor `'`,
`tokenize` returns, in order, the maximal runs of non-space characters of the
line (the line split on the space character with the empty pieces dropped); so
no token is empty or holds a space, and every character other than the space,
tabs included, is copied unchanged: the tokens laid end to end are the line
without its spaces. -/
theorem tokenize_plain_splitting (line : String) (hd : dquote ∉ line.data)
    (hs : squote ∉ line.data) :
    tokenize line = split_on_spaces line
      ∧ (∀ tok ∈ tokenize line, tok ≠ "" ∧ ' ' ∉ tok.data)
      ∧ ((tokenize line).map String.data).flatten = line.data.filter (fun c => c ≠ ' ') :=
  ⟨tokenize_eq_split_on_spaces line hd hs, tokenize_token_mem line hd hs,
    tokenize_flatten line hd hs⟩

/-- Witness of C9 on the line `ls<TAB>-l  /tmp `, whose tab stays inside the
first token. -/
theorem tokenize_plain_splitting_witness :
    (dquote ∉ "ls\t-l  /tmp ".data ∧ squote ∉ "ls\t-l  /tmp ".data)
      ∧ tokenize "ls\t-l  /tmp " = ["ls\t-l", "/tmp"]
      ∧ (tokenize "ls\t-l  /tmp " = split_on_spaces "ls\t-l  /tmp "
        ∧ (∀ tok ∈ tokenize "ls\t-l  /tmp ", tok ≠ "" ∧ ' ' ∉ tok.data)
        ∧ ((tokenize "ls\t-l  /tmp ").map String.data).flatten
            = "ls\t-l  /tmp ".data.filter (fun c => c ≠ ' ')) :=
  ⟨⟨by decide, by decide⟩, by decide,
    tokenize_plain_splitting "ls\t-l  /tmp " (by decide) (by decide)⟩

theorem tokenize_loop_quoted (cs : List Char) (toks : List String) (tok : String)
    (hd : dquote ∉ cs) (hs : squote ∉ cs) :
    tokenize_loop cs ⟨toks, tok, true⟩ = ⟨toks, ⟨tok.data ++ cs⟩, true⟩ := by
  induction cs generalizing tok with
  | nil => simp [tokenize_loop]
  | cons c cs ih =>
    have hc1 : c ≠ dquote := fun h => hd (by simp [h])
    have hc2 : c ≠ squote := fun h => hs (by simp [h])
    have hd2 : dquote ∉ cs := fun h => hd (by simp [h])
    have hs2 : squote ∉ cs := fun h => hs (by simp [h])
    simp [tokenize_loop, tokenize_step, hc1, hc2, ih _ hd2 hs2, String.push]

theorem quoted_data (text : String) : (quoted text).data = dquote :: (text.data ++ [dquote]) := by
  simp [quoted, String.singleton]

/-- Claim C1, as amended (quote stripping). For every text that contains neither
`"` nor `'`, `tokenize` applied to the line `"` + text + `"` returns exactly one
token, equal to text with its spaces preserved, when text is not empty, and
returns no token when text is empty. -/
theorem tokenize_quoted (text : String) (hd : dquote ∉ text.data) (hs : squote ∉ text.data) :
    tokenize (quoted text) = if text = "" then [] else [text] := by
  have h1 : tokenize_loop (quoted text).data ⟨[], "", false⟩ = ⟨[], text, false⟩ := by
    rw [quoted_data]
    simp only [tokenize_loop, tokenize_step, true_or, if_true, Bool.not_false]
    rw [tokenize_loop_append, tokenize_loop_quoted text.data [] "" hd hs]
    simp [tokenize_loop, tokenize_step]
  simp only [tokenize, h1]
  by_cases h : text = "" <;> simp [h]

/-- Witness of the amended C1 on the text `a  b c`. -/
theorem tokenize_quoted_witness :
    (dquote ∉ "a  b c".data ∧ squote ∉ "a  b c".data)
      ∧ tokenize (quoted "a  b c") = ["a  b c"] :=
  ⟨⟨by decide, by decide⟩, tokenize_quoted "a  b c" (by decide) (by decide)⟩

/-- Counterexample to C1 as stated: for the empty text the line `""` yields no
token at all, and for the text `a" b` the line `"a" b"` yields the two tokens
`a` and `b`, neither of which is the text. -/
theorem tokenize_quoted_counterexample :
    tokenize (quoted "") = []
      ∧ tokenize (quoted (String.mk ['a', dquote, ' ', 'b'])) = ["a", "b"] :=
  ⟨by decide, by decide⟩

/-! ## `find_redirection` and `command_tokens` -/

theorem execute_builtin_no_fork (os : OS) (sh : Shell) (args : List String) :
    ∀ e ∈ (execute_builtin os sh args).2.2, is_fork e = false := by
  intro e he
  unfold execute_builtin at he
  simp only [help_lines] at he
  split_ifs at he <;> simp at he
  all_goals (first
    | (subst he; rfl)
    | (rcases he with he | he <;> subst he <;> rfl)
    | (rcases he with he | he | he | he | he | he | he | he | he | he <;> subst he <;> rfl))

theorem is_builtin_iff (cmd : String) :
    is_builtin cmd = true ↔ cmd ∈ ["cd", "exit", "help", "pwd"] := by
  simp [is_builtin, or_assoc]

/-- Claim C7 (builtin short-circuit). Let `r` be the tokens left after dropping a
trailing `&` and truncating at the redirection operator, and `cmd` its first
token. If `cmd` is one of `cd`, `exit`, `help`, `pwd`, then `execute_command`
ends at the call `execute_builtin(r)` on the whole of `r`, returns exactly its
status (with its effect on the data members and its events) and performs no
`fork`, whatever the background flag, the redirection and the `|` tokens of
`r`. If `cmd` is none of the four names, `execute_builtin` is not called. -/
theorem builtin_short_circuit (os : OS) (sh : Shell) (tokens : List String) (cmd : String)
    (hhead : (command_tokens (remove_background_marker tokens)).2.head? = some cmd) :
    (cmd ∈ ["cd", "exit", "help", "pwd"] →
      select_call tokens = Call.builtin (command_tokens (remove_background_marker tokens)).2
      ∧ execute_command os sh tokens
          = (Outcome.returned
              (execute_builtin os sh (command_tokens (remove_background_marker tokens)).2).1,
             (execute_builtin os sh (command_tokens (remove_background_marker tokens)).2).2.1,
             (execute_builtin os sh (command_tokens (remove_background_marker tokens)).2).2.2)
      ∧ ∀ e ∈ (execute_command os sh tokens).2.2, is_fork e = false)
    ∧ (cmd ∉ ["cd", "exit", "help", "pwd"] → ∀ args, select_call tokens ≠ Call.builtin args) := by
  have htok : tokens ≠ [] := by
    intro h
    subst h
    simp [remove_background_marker, has_background, command_tokens, find_redirection,
      find_redirection_loop] at hhead
  have hr : (command_tokens (remove_background_marker tokens)).2 ≠ [] := by
    intro h
    rw [h] at hhead
    simp at hhead
  have hD : (command_tokens (remove_background_marker tokens)).2.headD "" = cmd := by
    cases hc : (command_tokens (remove_background_marker tokens)).2 with
    | nil => exact absurd hc hr
    | cons a l => rw [hc] at hhead; simpa using hhead
  constructor
  · intro hcmd
    have hb : is_builtin cmd = true := (is_builtin_iff cmd).2 hcmd
    have hsel : select_call tokens
        = Call.builtin (command_tokens (remove_background_marker tokens)).2 := by
      simp only [select_call, htok, hr, if_false, hD, hb, if_true]
    refine ⟨hsel, ?_, ?_⟩
    · simp only [execute_command, hsel]
    · simp only [execute_command, hsel]
      exact execute_builtin_no_fork os sh _
  · intro hcmd args
    have hb : is_builtin cmd = false := by
      rw [Bool.eq_false_iff]
      exact fun h => hcmd ((is_builtin_iff cmd).1 h)
    simp only [select_call, htok, hr, if_false, hD, hb]
    split_ifs <;> simp_all

/-- Witness of C7 on `cd /tmp | x > f &`: the whole of `cd /tmp | x` goes to
`execute_builtin`, which changes the directory; no process is created. -/
theorem builtin_short_circuit_witness :
    (command_tokens (remove_background_marker ["cd", "/tmp", "|", "x", ">", "f", "&"])).2.head?
        = some "cd"
      ∧ select_call ["cd", "/tmp", "|", "x", ">", "f", "&"]
          = Call.builtin ["cd", "/tmp", "|", "x"]
      ∧ (execute_command os_ok ⟨"/home", true⟩ ["cd", "/tmp", "|", "x", ">", "f", "&"]).1
          = Outcome.returned 0 :=
  have h := (builtin_short_circuit os_ok ⟨"/home", true⟩
    ["cd", "/tmp", "|", "x", ">", "f", "&"] "cd" (by decide)).1 (by decide)
  ⟨by decide, h.1, by rw [h.2.1]; decide⟩

/-- Claim C4 (zero-stage no-op), evaluated on the single token `|`. The token is
neither empty input nor a builtin, `parse_pipeline` yields zero stages, and
`execute_command` ends at the call of `execute_pipeline` on the empty stage
list. There `num_commands - 1` is `-1`, the table length asked for is
`2^64 - 1`, beyond `max_size()`, and the constructor throws: the function does
not return 0. -/
theorem zero_stage_enters_pipeline (os : OS) (sh : Shell) :
    parse_pipeline ["|"] = []
      ∧ select_call ["|"] = Call.pipeline [] "" "" false
      ∧ pipe_table_len 0 = 2 ^ 64 - 1
      ∧ execute_command os sh ["|"] = (Outcome.length_error, sh, []) := by
  refine ⟨by decide, by decide, by decide, ?_⟩
  have h : select_call ["|"] = Call.pipeline [] "" "" false := by decide
  simp only [execute_command, h, execute_pipeline]
  rfl

/-- Every command line whose remaining tokens are not empty and parse into zero
stages (they are all `|`) takes the same path as the single token `|`. -/
theorem zero_stages_throw (os : OS) (sh : Shell) (tokens : List String)
    (hr : (command_tokens (remove_background_marker tokens)).2 ≠ [])
    (hz : parse_pipeline (command_tokens (remove_background_marker tokens)).2 = []) :
    execute_command os sh tokens = (Outcome.length_error, sh, []) := by
  have htok : tokens ≠ [] := by
    intro h
    subst h
    exact hr (by decide)
  have hflat := parse_pipeline_flatten (command_tokens (remove_background_marker tokens)).2
  rw [hz] at hflat
  have hhead : (command_tokens (remove_background_marker tokens)).2.headD "" = "|" := by
    cases hc : (command_tokens (remove_background_marker tokens)).2 with
    | nil => exact absurd hc hr
    | cons a l =>
      rw [hc] at hflat
      by_cases ha : a = "|"
      · simpa using ha
      · simp [List.filter_cons, ha] at hflat
  have hb : is_builtin ((command_tokens (remove_background_marker tokens)).2.headD "")
      = false := by
    rw [hhead]; decide
  have hsel : select_call tokens
      = Call.pipeline []
          (command_tokens (remove_background_marker tokens)).1.input_file
          (command_tokens (remove_background_marker tokens)).1.output_file
          (has_background tokens) := by
    simp only [select_call, htok, hr, hb, hz, if_false, Bool.false_eq_true]
    rfl
  simp only [execute_command, hsel, execute_pipeline]
  rfl

/-- Claim C5 (append versus truncate), evaluated on `ls | cat >> out.txt` and on
`cat >> out.txt`. Both command lines carry the operator `>>`. The single
command's child opens `out.txt` with `O_WRONLY | O_CREAT | O_APPEND`; the call
of `execute_pipeline` does not receive `append`, and the child of the last
stage opens `out.txt` with `O_WRONLY | O_CREAT | O_TRUNC`. -/
theorem pipeline_append_truncates :
    (command_tokens ["ls", "|", "cat", ">>", "out.txt"]).1 = ⟨"", "out.txt", true⟩
      ∧ select_call ["ls", "|", "cat", ">>", "out.txt"]
          = Call.pipeline [["ls"], ["cat"]] "" "out.txt" false
      ∧ output_open_flags
          (execute_command (os_child 1) ⟨"/", true⟩ ["ls", "|", "cat", ">>", "out.txt"]).2.2
          = [[OpenFlag.O_WRONLY, OpenFlag.O_CREAT, OpenFlag.O_TRUNC]]
      ∧ output_open_flags
          (execute_command (os_child 0) ⟨"/", true⟩ ["cat", ">>", "out.txt"]).2.2
          = [[OpenFlag.O_WRONLY, OpenFlag.O_CREAT, OpenFlag.O_APPEND]] := by
  refine ⟨by decide, by decide, by decide, by decide⟩

/-- Claim C10 (pipe table bounds), evaluated on the two-stage pipeline `ls | wc`.
The table is allocated with `num_commands - 1 = 1` entry, and the parent
stores the two ends of the pipe at indices 0 and 1 and closes indices 0 and 1:
index 1 is not below the length of the table. The child of the second stage
closes the same two indices. -/
theorem pipe_table_too_short :
    pipe_table_len 2 = 1
      ∧ (execute_pipeline os_ok [["ls"], ["wc"]] "" "" false).2
          = [Event.alloc_pipes 1, Event.pipe 0 0, Event.fork 100, Event.fork 101,
             Event.close (FdRef.pipes 0), Event.close (FdRef.pipes 1),
             Event.waitpid 100 0, Event.waitpid 101 0]
      ∧ (execute_pipeline os_ok [["ls"], ["wc"]] "" "" false).2.flatMap table_indices
          = [0, 1, 0, 1]
      ∧ (execute_pipeline (os_child 1) [["ls"], ["wc"]] "" "" false).2.flatMap table_indices
          = [0, 1, 0, 0, 1] := by
  refine ⟨by decide, by decide, by decide, by decide⟩

/-! ## Exit status of a foreground command -/

theorem pipe_table_len_ok (n : Nat) (h1 : 1 ≤ n) (h2 : n < 2 ^ 31) :
    pipe_table_len n = n - 1 ∧ ¬ (pipe_table_len n > vector_int_max_size) := by
  have hlen : pipe_table_len n = n - 1 := by
    unfold pipe_table_len size_t_of_int
    have : ((n : Int) - 1) % 2 ^ 64 = (n : Int) - 1 := by
      apply Int.emod_eq_of_lt <;> omega
    rw [this]
    omega
  refine ⟨hlen, ?_⟩
  rw [hlen]
  unfold vector_int_max_size
  norm_num
  omega

/-- For every stage count from 2 up, the table allocated is shorter than the
`2 * (num_commands - 1)` entries the loops of `execute_pipeline` index. -/
theorem pipe_table_len_lt_needed (n : Nat) (h1 : 2 ≤ n) (h2 : n < 2 ^ 31) :
    pipe_table_len n = n - 1 ∧ pipe_table_len n < 2 * (n - 1) := by
  have h := (pipe_table_len_ok n (by omega) h2).1
  refine ⟨h, ?_⟩
  rw [h]
  omega

end TinyShell
